import Mathlib

/-!
Verification of the keeppoker Texas Holdem engine against its specification.

This file is a shallow embedding, in Lean 4, of the parts of the repository
that the specification's claims are about:

* the card model and the hand evaluator of the poker-engine file
  (classes PokerCard, HandEvaluator: evaluate, the ten check functions,
  calculateHandValue, compareHands);
* the pot ledger of pot.js (classes PlayerContribution, Pot, PotManager:
  addPlayerContribution, addBet, getPotSpaceForPlayer, createNewSidePot,
  playerFolds, playerAllIn / recalculateForAllIn / handleExcessContribution,
  distributeToWinners, calculateDistribution, distributeAllPots);
* the player record of jogador.js (class PokerPlayer: addToBet, allIn,
  takeAction, canAct, canCheck, getCallAmount, getMinRaise);
* the action entry point of poker-manager.js (PokerGameManager:
  processPlayerAction, validateAction, calculateMinRaise);
* the two deck variants (baralho-texas.js PokerDeck.deal, which restores and
  reshuffles on underflow, and the poker-engine PokerDeck.deal, which throws).

JavaScript numbers that hold chip amounts are modelled as Int, and the
JavaScript Infinity default of an all-in ceiling as an Option Int with none
standing for Infinity.  JS Map and Set fields are modelled as lists kept in
insertion order, matching JS iteration order.  Display-only and audit-only
fields (console logs, timestamps, percentages, statistics counters, action
history, the contributions-by-round audit map, the memoization cache of the
evaluator, which is keyed by the full card multiset and therefore
semantically transparent) are omitted.  The while-loop of PotManager.addBet
is modelled with explicit fuel; returning none means the JS loop does not
terminate.
-/

deriving instance DecidableEq for Except

-- ================ CARD MODEL ================

/-- The four suits of SUITS. -/
inductive Suit where
  | hearts | diamonds | clubs | spades
deriving DecidableEq, Repr

/-- The thirteen ranks of RANKS. -/
inductive Rank where
  | two | three | four | five | six | seven | eight | nine | ten
  | jack | queen | king | ace
deriving DecidableEq, Repr

/-- RANKS[rank].value: the numeric value 2..14, Ace high. -/
def Rank.value : Rank → Nat
  | .two => 2 | .three => 3 | .four => 4 | .five => 5 | .six => 6
  | .seven => 7 | .eight => 8 | .nine => 9 | .ten => 10
  | .jack => 11 | .queen => 12 | .king => 13 | .ace => 14

/-- PokerCard: suit and rank; value, symbol, display are derived. -/
structure Card where
  suit : Suit
  rank : Rank
deriving DecidableEq, Repr

/-- this.value of a PokerCard. -/
def Card.value (c : Card) : Nat := c.rank.value

-- ================ LIST HELPERS MATCHING THE JS SORTS ================

/-- One step of the stable descending sort cards.sort((a,b) => b.value - a.value). -/
def insertCardDesc (x : Card) : List Card → List Card
  | [] => [x]
  | y :: ys => if y.value > x.value then y :: insertCardDesc x ys else x :: y :: ys

/-- Stable descending sort by card value (JS Array.prototype.sort is stable). -/
def sortCardsDesc (l : List Card) : List Card := l.foldr insertCardDesc []

/-- Ascending insertion for natural numbers. -/
def insertNatAsc (x : Nat) : List Nat → List Nat
  | [] => [x]
  | y :: ys => if y < x then y :: insertNatAsc x ys else x :: y :: ys

/-- Ascending sort of a list of values. -/
def sortNatAsc (l : List Nat) : List Nat := l.foldr insertNatAsc []

/-- Descending insertion for natural numbers. -/
def insertNatDesc (x : Nat) : List Nat → List Nat
  | [] => [x]
  | y :: ys => if y > x then y :: insertNatDesc x ys else x :: y :: ys

/-- Descending sort of a list of values (pairs.sort((a,b) => b.value - a.value)). -/
def sortNatDesc (l : List Nat) : List Nat := l.foldr insertNatDesc []

/-- Distinct elements of a list in first-occurrence order (JS object-key /
Set insertion order). -/
def firstOccurNats (seen : List Nat) : List Nat → List Nat
  | [] => []
  | v :: vs => if seen.contains v then firstOccurNats seen vs
               else v :: firstOccurNats (v :: seen) vs

/-- Distinct suits of a card list in first-occurrence order. -/
def suitsOrderGo (seen : List Suit) : List Card → List Suit
  | [] => []
  | c :: cs => if seen.contains c.suit then suitsOrderGo seen cs
               else c.suit :: suitsOrderGo (c.suit :: seen) cs

/-- Suits present among the cards, in first-occurrence order: the iteration
order of the suits object built by forEach. -/
def suitsOrder (cards : List Card) : List Suit := suitsOrderGo [] cards

/-- Keep the first card of each value while traversing (the seen-Set dedup
loop of checkStraight). -/
def dedupByValueGo (seen : List Nat) : List Card → List Card
  | [] => []
  | c :: cs => if seen.contains c.value then dedupByValueGo seen cs
               else c :: dedupByValueGo (c.value :: seen) cs

def dedupByValue (l : List Card) : List Card := dedupByValueGo [] l

-- ================ HAND EVALUATOR ================

/-- The hand-category table POKER_HANDS: value 10 = Royal Flush down to
value 1 = High Card. -/
def ROYAL_FLUSH : Nat := 10
def STRAIGHT_FLUSH : Nat := 9
def FOUR_OF_A_KIND : Nat := 8
def FULL_HOUSE : Nat := 7
def FLUSH : Nat := 6
def STRAIGHT : Nat := 5
def THREE_OF_A_KIND : Nat := 4
def TWO_PAIR : Nat := 3
def ONE_PAIR : Nat := 2
def HIGH_CARD : Nat := 1

/-- groupByValue keys, iterated ascending (JS integer keys iterate in
ascending numeric order). -/
def valuesAsc (cards : List Card) : List Nat :=
  sortNatAsc (firstOccurNats [] (cards.map Card.value))

/-- groups[value]: the cards of one value, in original order. -/
def groupOf (cards : List Card) (v : Nat) : List Card :=
  cards.filter (fun c => c.value = v)

/-- The foldl realizing the best-candidate scans of checkFullHouse
(keep the largest value satisfying ok). -/
def scanBest (vals : List Nat) (ok : Nat → Bool) : Option Nat :=
  vals.foldl
    (fun acc v =>
      if ok v then
        match acc with
        | none => some v
        | some w => if v > w then some v else some w
      else acc)
    none

/-- HandEvaluator.isConsecutive on a descending value list. -/
def isConsecutive : List Nat → Bool
  | [] => true
  | [_] => true
  | a :: b :: t => a = b + 1 && isConsecutive (b :: t)

/-- The window scan of checkStraight over the deduplicated descending list. -/
def straightWindow (l : List Card) : Option (List Card) :=
  (List.range (l.length - 4)).findSome? (fun i =>
    let seq := (l.drop i).take 5
    if isConsecutive (seq.map Card.value) then some seq else none)

/-- HandEvaluator.checkStraight: normal windows first, then the wheel
A-2-3-4-5 (the Ace card itself is placed first, keeping its value 14). -/
def checkStraight (cards : List Card) : Option (List Card) :=
  let uniqueCards := dedupByValue (sortCardsDesc cards)
  match straightWindow uniqueCards with
  | some seq => some seq
  | none =>
      if uniqueCards.any (fun c => c.value = 14) ∧
         uniqueCards.any (fun c => c.value = 2) ∧
         uniqueCards.any (fun c => c.value = 3) ∧
         uniqueCards.any (fun c => c.value = 4) ∧
         uniqueCards.any (fun c => c.value = 5) then
        some (([uniqueCards.find? (fun c => c.value = 14),
                uniqueCards.find? (fun c => c.value = 5),
                uniqueCards.find? (fun c => c.value = 4),
                uniqueCards.find? (fun c => c.value = 3),
                uniqueCards.find? (fun c => c.value = 2)]).filterMap id)
      else none

/-- HandEvaluator.checkStraightFlush: first suit (in insertion order) with at
least five cards whose cards contain a straight. -/
def checkStraightFlush (cards : List Card) : Option (List Card) :=
  (suitsOrder cards).findSome? (fun s =>
    let grp := cards.filter (fun c => c.suit = s)
    if grp.length ≥ 5 then
      match checkStraight grp with
      | some st => some (st.take 5)
      | none => none
    else none)

/-- HandEvaluator.checkRoyalFlush: a straight flush of exactly five cards
containing Ace, King and Ten. -/
def checkRoyalFlush (cards : List Card) : Option (List Card) :=
  match checkStraightFlush cards with
  | none => none
  | some sf =>
      let vals := sf.map Card.value
      if vals.contains 14 ∧ vals.contains 10 ∧ vals.contains 13 ∧
         sf.length = 5 then some sf
      else none

/-- HandEvaluator.checkFourOfAKind.  In the source the kicker is
remaining[0]; when no card remains that access yields undefined and the later
value computation crashes, so the missing kicker is modelled by dropping it. -/
def checkFourOfAKind (cards : List Card) : Option (List Card) :=
  match (valuesAsc cards).find? (fun v => (groupOf cards v).length ≥ 4) with
  | none => none
  | some v =>
      let four := (groupOf cards v).take 4
      let remaining := sortCardsDesc (cards.filter (fun c => c.value ≠ v))
      some ((four ++ remaining.take 1).take 5)

/-- HandEvaluator.checkFullHouse: best trips, then best pair of a different
value. -/
def checkFullHouse (cards : List Card) : Option (List Card) :=
  match scanBest (valuesAsc cards) (fun v => (groupOf cards v).length ≥ 3) with
  | none => none
  | some t =>
      match scanBest (valuesAsc cards)
          (fun v => (groupOf cards v).length ≥ 2 && v ≠ t) with
      | none => none
      | some p => some ((groupOf cards t).take 3 ++ (groupOf cards p).take 2)

/-- HandEvaluator.checkFlush: first suit with at least five cards, top five
by value. -/
def checkFlush (cards : List Card) : Option (List Card) :=
  match (suitsOrder cards).find?
      (fun s => (cards.filter (fun c => c.suit = s)).length ≥ 5) with
  | none => none
  | some s => some ((sortCardsDesc (cards.filter (fun c => c.suit = s))).take 5)

/-- HandEvaluator.checkThreeOfAKind. -/
def checkThreeOfAKind (cards : List Card) : Option (List Card) :=
  match (valuesAsc cards).find? (fun v => (groupOf cards v).length ≥ 3) with
  | none => none
  | some v =>
      some ((groupOf cards v).take 3 ++
            (sortCardsDesc (cards.filter (fun c => c.value ≠ v))).take 2)

/-- HandEvaluator.checkTwoPair.  As in checkFourOfAKind, a missing kicker
(undefined in the source) is modelled by dropping it. -/
def checkTwoPair (cards : List Card) : Option (List Card) :=
  let pairVals := (valuesAsc cards).filter (fun v => (groupOf cards v).length ≥ 2)
  if pairVals.length ≥ 2 then
    match sortNatDesc pairVals with
    | v1 :: v2 :: _ =>
        let p1 := (groupOf cards v1).take 2
        let p2 := (groupOf cards v2).take 2
        let kicker :=
          (sortCardsDesc (cards.filter
            (fun c => c.value ≠ v1 ∧ c.value ≠ v2))).take 1
        some ((p1 ++ p2 ++ kicker).take 5)
    | _ => none
  else none

/-- HandEvaluator.checkOnePair. -/
def checkOnePair (cards : List Card) : Option (List Card) :=
  match (valuesAsc cards).find? (fun v => (groupOf cards v).length ≥ 2) with
  | none => none
  | some v =>
      some ((groupOf cards v).take 2 ++
            (sortCardsDesc (cards.filter (fun c => c.value ≠ v))).take 3)

/-- HandEvaluator.checkHighCard. -/
def checkHighCard (cards : List Card) : List Card :=
  (sortCardsDesc cards).take 5

/-- The weighted kicker loop of calculateHandValue:
value += cards[i].value * 14^(4-i). -/
def kickerPartGo : Nat → List Card → Nat
  | _, [] => 0
  | i, c :: cs => c.value * 14 ^ (4 - i) + kickerPartGo (i + 1) cs

def kickerPart (l : List Card) : Nat := kickerPartGo 0 l

/-- HandEvaluator.calculateHandValue: category at weight 1,000,000 plus the
kickers of the hand sorted descending. -/
def calculateHandValue (cards : List Card) (handRank : Nat) : Nat :=
  handRank * 1000000 + kickerPart (sortCardsDesc cards)

/-- The evaluator output record (rank = categoryRank 1..10, value =
tiebreakValue, cards = best five). -/
structure HandResult where
  rank : Nat
  value : Nat
  cards : List Card
deriving DecidableEq, Repr

/-- HandEvaluator.finalizeResult (hand name and description omitted:
display only). -/
def finalizeResult (cards : List Card) (handRank : Nat) : HandResult :=
  { rank := handRank
    value := calculateHandValue cards handRank
    cards := cards.take 5 }

/-- HandEvaluator.evaluate: the checks from Royal Flush down to High Card,
first hit wins. -/
def evaluate (hole community : List Card) : HandResult :=
  let allCards := hole ++ community
  match checkRoyalFlush allCards with
  | some cs => finalizeResult cs ROYAL_FLUSH
  | none =>
  match checkStraightFlush allCards with
  | some cs => finalizeResult cs STRAIGHT_FLUSH
  | none =>
  match checkFourOfAKind allCards with
  | some cs => finalizeResult cs FOUR_OF_A_KIND
  | none =>
  match checkFullHouse allCards with
  | some cs => finalizeResult cs FULL_HOUSE
  | none =>
  match checkFlush allCards with
  | some cs => finalizeResult cs FLUSH
  | none =>
  match checkStraight allCards with
  | some cs => finalizeResult cs STRAIGHT
  | none =>
  match checkThreeOfAKind allCards with
  | some cs => finalizeResult cs THREE_OF_A_KIND
  | none =>
  match checkTwoPair allCards with
  | some cs => finalizeResult cs TWO_PAIR
  | none =>
  match checkOnePair allCards with
  | some cs => finalizeResult cs ONE_PAIR
  | none => finalizeResult (checkHighCard allCards) HIGH_CARD

/-- The per-card tiebreak loop at the end of compareHands. -/
def cardTieLoop : List Card → List Card → Int
  | a :: as, b :: bs =>
      if a.value ≠ b.value then (if a.value > b.value then 1 else -1)
      else cardTieLoop as bs
  | _, _ => 0

/-- HandEvaluator.compareHands: rank first, then value, then card-by-card. -/
def compareHands (h1 h2 : HandResult) : Int :=
  if h1.rank ≠ h2.rank then (if h1.rank > h2.rank then 1 else -1)
  else if h1.value ≠ h2.value then (if h1.value > h2.value then 1 else -1)
  else cardTieLoop (sortCardsDesc h1.cards) (sortCardsDesc h2.cards)

-- ================ PLAYER (jogador.js, class PokerPlayer) ================

/-- The slice of PokerPlayer that the betting operations read and write.
Statistics counters, the action history, cards and connection metadata that
no claim touches are omitted. -/
structure PokerPlayer where
  userId : String
  nickname : String
  chips : Int
  betAmount : Int          -- the numeric field this.bet
  totalBetThisHand : Int
  lastBetAmount : Int
  isActive : Bool
  isInHand : Bool
  isFolded : Bool
  isAllIn : Bool
  hasActedThisRound : Bool
  sittingOut : Bool
  isEliminated : Bool
  connected : Bool
  isCurrentTurn : Bool
  lastAction : Option String
  lastActionAmount : Int
deriving DecidableEq, Repr

/-- A freshly constructed PokerPlayer (constructor defaults). -/
def mkPokerPlayer (userId nickname : String) (chips : Int) : PokerPlayer :=
  { userId := userId
    nickname := nickname
    chips := max 0 chips
    betAmount := 0
    totalBetThisHand := 0
    lastBetAmount := 0
    isActive := true
    isInHand := true
    isFolded := false
    isAllIn := false
    hasActedThisRound := false
    sittingOut := false
    isEliminated := false
    connected := true
    isCurrentTurn := false
    lastAction := none
    lastActionAmount := 0 }

/-- PokerPlayer.addToBet: moves min(amount, chips) from the stack to the
current bet and marks all-in when the stack hits zero.  Returns the amount
actually moved together with the updated player. -/
def playerAddToBet (p : PokerPlayer) (amount : Int) : Int × PokerPlayer :=
  if amount ≤ 0 then (0, p)
  else
    let actualAmount := min amount p.chips
    if actualAmount ≤ 0 then (0, p)
    else
      let p2 := { p with chips := p.chips - actualAmount
                         betAmount := p.betAmount + actualAmount
                         totalBetThisHand := p.totalBetThisHand + actualAmount
                         lastBetAmount := actualAmount }
      let p3 := if p2.chips = 0 then { p2 with isAllIn := true } else p2
      (actualAmount, p3)

/-- PokerPlayer.allIn: bet the whole stack, then set the all-in flag. -/
def playerAllInAction (p : PokerPlayer) : Int × PokerPlayer :=
  let r := playerAddToBet p p.chips
  (r.1, { r.2 with isAllIn := true })

/-- PokerPlayer.fold. -/
def playerFoldAction (p : PokerPlayer) : PokerPlayer :=
  { p with isFolded := true, isInHand := false, betAmount := 0 }

/-- The gameState argument handed to takeAction / canAct.  The manager builds
it with only currentMaxBet and currentRound, so currentPlayerTurn is none
(undefined) on that call path. -/
structure GameStateArg where
  currentMaxBet : Int
  currentRound : String
  currentPlayerTurn : Option String
deriving DecidableEq, Repr

/-- action.toLowerCase(), as a structurally computable map over the
characters. -/
def strToLower (s : String) : String := String.mk (s.data.map Char.toLower)

/-- PokerPlayer.canCheck. -/
def canCheck (p : PokerPlayer) (currentMaxBet : Int) : Bool :=
  p.betAmount ≥ currentMaxBet

/-- PokerPlayer.getCallAmount. -/
def getCallAmount (p : PokerPlayer) (currentMaxBet : Int) : Int :=
  max 0 (currentMaxBet - p.betAmount)

/-- PokerPlayer.getMinRaise. -/
def getMinRaise (p : PokerPlayer) (currentMaxBet : Int) : Int :=
  if currentMaxBet = 0 then 0
  else max (currentMaxBet + (currentMaxBet - p.betAmount)) (currentMaxBet * 2)

/-- PokerPlayer.canAct: the guard chain, ending with the comparison of
gameState.currentPlayerTurn against this player's id. -/
def canAct (p : PokerPlayer) (gs : GameStateArg) : Bool :=
  if ¬ p.isActive then false
  else if p.isEliminated then false
  else if ¬ p.isInHand then false
  else if p.isFolded then false
  else if p.isAllIn then false
  else if p.sittingOut then false
  else if ¬ p.connected then false
  else if p.chips ≤ 0 then false
  else if gs.currentPlayerTurn = some p.userId then true
  else false

/-- PokerPlayer.takeAction.  Returns the thrown error or the chips moved,
together with the player as left behind: the source mutates lastAction,
lastActionAmount, hasActedThisRound and isCurrentTurn before the switch, so
an error thrown inside the switch leaves those mutations in place.  In the
source the case for the action string bet calls this.bet(...), but this.bet
is the numeric field that shadows the prototype method, so that call throws
a TypeError; it is modelled as that error.  Statistics and history updates
after the switch are omitted. -/
def takeAction (p : PokerPlayer) (action : String) (amount : Int)
    (gs : GameStateArg) : Except String Int × PokerPlayer :=
  if canAct p gs = false then
    (.error (p.nickname ++ " não pode agir no momento"), p)
  else
    let actionLower := strToLower action
    let p1 := { p with lastAction := some actionLower
                       lastActionAmount := amount
                       hasActedThisRound := true
                       isCurrentTurn := false }
    if actionLower = "fold" then (.ok 0, playerFoldAction p1)
    else if actionLower = "check" then
      if canCheck p1 gs.currentMaxBet then (.ok 0, p1)
      else (.error "Não pode dar check, precisa igualar a aposta", p1)
    else if actionLower = "call" then
      let callAmount := getCallAmount p1 gs.currentMaxBet
      if callAmount ≤ 0 then
        if canCheck p1 gs.currentMaxBet then (.ok 0, p1)
        else (.error "Não pode dar check, precisa igualar a aposta", p1)
      else
        let r := playerAddToBet p1 callAmount
        (.ok r.1, r.2)
    else if actionLower = "bet" then
      (.error "TypeError: this.bet is not a function", p1)
    else if actionLower = "raise" then
      let minRaise := getMinRaise p1 gs.currentMaxBet
      if amount < minRaise ∧ p1.chips ≥ minRaise then
        (.error ("Raise mínimo: " ++ toString minRaise), p1)
      else
        let r := playerAddToBet p1 amount
        (.ok r.1, r.2)
    else if actionLower = "allin" then
      let r := playerAllInAction p1
      (.ok r.1, r.2)
    else (.error ("Ação inválida: " ++ action), p1)

-- ================ POT LEDGER (pot.js) ================

/-- PlayerContribution (the per-round audit map is omitted). -/
structure PlayerContribution where
  playerId : String
  amount : Int
  isEligible : Bool
  hasWon : Bool
  wonAmount : Int
deriving DecidableEq, Repr

/-- Pot: a main pot (level 0) or a side pot.  The Map of contributions and
the Set of eligible players are lists in insertion order. -/
structure Pot where
  id : String
  level : Nat
  amount : Int
  playerContributions : List PlayerContribution
  eligiblePlayers : List String
  winners : List String
  isDistributed : Bool
  isLocked : Bool
deriving DecidableEq, Repr

/-- new Pot(id, level). -/
def mkPot (id : String) (level : Nat) : Pot :=
  { id := id, level := level, amount := 0, playerContributions := []
    eligiblePlayers := [], winners := [], isDistributed := false
    isLocked := false }

/-- Pot.getPlayerContribution. -/
def potGetPlayerContribution (pot : Pot) (playerId : String) : Int :=
  match pot.playerContributions.find? (fun c => c.playerId = playerId) with
  | some c => c.amount
  | none => 0

/-- Set.add: append if absent. -/
def insertIfAbsent (pid : String) (l : List String) : List String :=
  if l.contains pid then l else l ++ [pid]

/-- Pot.addPlayerContribution: no-op on a locked pot, otherwise create or
update the contribution, grow the pot amount and add the player to the
eligible set when the amount is positive.  Returns the updated pot and the
player's new contribution total. -/
def potAddPlayerContribution (pot : Pot) (playerId : String) (amount : Int) :
    Pot × Int :=
  if pot.isLocked then (pot, 0)
  else
    let contribs :=
      if pot.playerContributions.any (fun c => c.playerId = playerId) then
        pot.playerContributions.map (fun c =>
          if c.playerId = playerId then { c with amount := c.amount + amount }
          else c)
      else
        pot.playerContributions ++
          [{ playerId := playerId, amount := amount, isEligible := true
             hasWon := false, wonAmount := 0 }]
    let newAmount :=
      match contribs.find? (fun c => c.playerId = playerId) with
      | some c => c.amount
      | none => 0
    let pot2 := { pot with playerContributions := contribs
                           amount := pot.amount + amount
                           eligiblePlayers :=
                             if amount > 0 then
                               insertIfAbsent playerId pot.eligiblePlayers
                             else pot.eligiblePlayers }
    (pot2, newAmount)

/-- Pot.removeEligiblePlayer. -/
def potRemoveEligiblePlayer (pot : Pot) (playerId : String) : Pot :=
  { pot with eligiblePlayers := pot.eligiblePlayers.erase playerId
             playerContributions := pot.playerContributions.map (fun c =>
               if c.playerId = playerId then { c with isEligible := false }
               else c) }

/-- Pot.isPlayerEligible. -/
def potIsPlayerEligible (pot : Pot) (playerId : String) : Bool :=
  pot.eligiblePlayers.contains playerId

/-- The max-contribution scan of getPotSpaceForPlayer. -/
def potMaxContribution (pot : Pot) : Int :=
  pot.playerContributions.foldl
    (fun m c => if c.amount > m then c.amount else m) 0

/-- Pot.calculateDistribution: a sole winner takes the whole amount;
otherwise floor(amount/N) each with one extra chip to the first
amount mod N winners.  Math.floor of a JS division is Int.fdiv and the JS
remainder operator is Int.tmod.  The percentage and handStrength fields of
each entry (display only) are omitted. -/
def calculateDistribution (pot : Pot) (winnerPlayers : List String) :
    List (String × Int) :=
  if winnerPlayers.length = 1 then
    [(winnerPlayers.headD "", pot.amount)]
  else
    let winnersCount : Int := winnerPlayers.length
    let baseAmount := pot.amount.fdiv winnersCount
    let remainder := pot.amount.tmod winnersCount
    winnerPlayers.enum.map (fun p =>
      (p.2, baseAmount + (if (p.1 : Int) < remainder then 1 else 0)))

/-- Pot.distributeToWinners: guarded by the distributed flag, an empty pot
and an empty winner list; marks the pot distributed and locked, computes the
split and records hasWon / wonAmount on the winning contributions. -/
def distributeToWinners (pot : Pot) (winnerPlayers : List String) :
    List (String × Int) × Pot :=
  if pot.isDistributed then ([], pot)
  else if pot.amount ≤ 0 then ([], pot)
  else if winnerPlayers.isEmpty then ([], pot)
  else
    let pot1 := { pot with winners := winnerPlayers, isDistributed := true
                           isLocked := true }
    let dist := calculateDistribution pot winnerPlayers
    let pot2 := { pot1 with playerContributions :=
      pot1.playerContributions.map (fun c =>
        match dist.find? (fun e => e.1 = c.playerId) with
        | some e => { c with hasWon := true, wonAmount := e.2 }
        | none => c) }
    (dist, pot2)

/-- One entry of distribution.pots in distributeAllPots. -/
structure PotDistEntry where
  potId : String
  amount : Int
  distribution : List (String × Int)
  eligibleWinners : List String
deriving DecidableEq, Repr

/-- The distribution record built by distributeAllPots (timestamp omitted). -/
structure DistResult where
  pots : List PotDistEntry
  totalDistributed : Int
  winners : List (String × Int)
deriving DecidableEq, Repr

def emptyDistResult : DistResult :=
  { pots := [], totalDistributed := 0, winners := [] }

/-- distribution.winners[playerId] += amount with on-demand creation. -/
def addWinnerAmount (ws : List (String × Int)) (pid : String) (amt : Int) :
    List (String × Int) :=
  if ws.any (fun p => p.1 = pid) then
    ws.map (fun p => if p.1 = pid then (p.1, p.2 + amt) else p)
  else ws ++ [(pid, amt)]

/-- PotManager (history, display helpers and the snapshot utilities are
omitted). -/
structure PotManager where
  mainPot : Pot
  sidePots : List Pot
  totalAmount : Int
  currentRound : String
  isShowdown : Bool
  lastDistribution : Option DistResult
deriving DecidableEq, Repr

/-- new PotManager(). -/
def initialPotManager : PotManager :=
  { mainPot := mkPot "main" 0, sidePots := [], totalAmount := 0
    currentRound := "preflop", isShowdown := false, lastDistribution := none }

/-- PotManager.updateTotalAmount. -/
def updateTotalAmount (pm : PotManager) : PotManager :=
  { pm with totalAmount :=
      pm.sidePots.foldl (fun t p => t + p.amount) pm.mainPot.amount }

/-- PotManager.getPotSpaceForPlayer: zero for a non-positive all-in ceiling,
otherwise the space left in the pot (highest contribution minus this
player's contribution) capped by the ceiling.  The ceiling none is the JS
default Infinity. -/
def getPotSpaceForPlayer (pid : String) (pot : Pot) (ceiling : Option Int) :
    Int :=
  match ceiling with
  | none =>
      potMaxContribution pot - potGetPlayerContribution pot pid
  | some c =>
      if c ≤ 0 then 0
      else
        min (potMaxContribution pot - potGetPlayerContribution pot pid)
            (c - potGetPlayerContribution pot pid)

/-- PotManager.createNewSidePot: a fresh pot at the next level whose eligible
set is copied from every CONTRIBUTOR of the previous pot (not from its
eligible set), and which is not attached to the manager by this function. -/
def createNewSidePot (pm : PotManager) : Pot :=
  let sidePotNumber := pm.sidePots.length + 1
  let previousPot :=
    if sidePotNumber = 1 then pm.mainPot
    else pm.sidePots.getD (sidePotNumber - 2) (mkPot "main" 0)
  { mkPot ("side-" ++ toString sidePotNumber) sidePotNumber with
      eligiblePlayers :=
        previousPot.playerContributions.foldl
          (fun acc c => if c.amount > 0 then insertIfAbsent c.playerId acc
                        else acc)
          [] }

/-- The for-loop of addBet over the existing side pots, threading the
remaining amount.  Returns the updated side pots, the remaining amount and
the potsAffected entries contributed by this phase. -/
def addBetSidePhase (pid : String) (ceiling : Option Int) :
    List Pot → Int → List Pot × Int × List (String × Int)
  | [], remaining => ([], remaining, [])
  | pot :: pots, remaining =>
    if remaining ≤ 0 then (pot :: pots, remaining, [])
    else
      let space := getPotSpaceForPlayer pid pot ceiling
      let amountToSide := min remaining space
      if amountToSide > 0 then
        let pr := potAddPlayerContribution pot pid amountToSide
        let rest := addBetSidePhase pid ceiling pots (remaining - amountToSide)
        (pr.1 :: rest.1, rest.2.1, (pot.id, amountToSide) :: rest.2.2)
      else
        let rest := addBetSidePhase pid ceiling pots remaining
        (pot :: rest.1, rest.2.1, rest.2.2)

/-- The while (remainingAmount > 0) loop of addBet that creates new side
pots, modelled with fuel.  A new pot has no contributions, so its space is
never positive and an iteration that cannot place money repeats with the
same state; none models the loop never terminating. -/
def addBetLoop (pid : String) (ceiling : Option Int) :
    Nat → PotManager → Int → List (String × Int) →
    Option (PotManager × Int × List (String × Int))
  | 0, pm, remaining, affected =>
      if remaining ≤ 0 then some (pm, remaining, affected) else none
  | fuel + 1, pm, remaining, affected =>
      if remaining ≤ 0 then some (pm, remaining, affected)
      else
        let newSidePot := createNewSidePot pm
        let space := getPotSpaceForPlayer pid newSidePot ceiling
        let amountToNewPot := min remaining space
        if amountToNewPot > 0 then
          let pr := potAddPlayerContribution newSidePot pid amountToNewPot
          addBetLoop pid ceiling fuel
            { pm with sidePots := pm.sidePots ++ [pr.1] }
            (remaining - amountToNewPot)
            (affected ++ [(newSidePot.id, amountToNewPot)])
        else addBetLoop pid ceiling fuel pm remaining affected

/-- The main-pot phase of addBet. -/
def addBetMainPhase (pm : PotManager) (pid : String) (amount : Int)
    (ceiling : Option Int) : PotManager × Int × List (String × Int) :=
  let mainPotSpace := getPotSpaceForPlayer pid pm.mainPot ceiling
  let amountToMain := min amount mainPotSpace
  if amountToMain > 0 then
    let pr := potAddPlayerContribution pm.mainPot pid amountToMain
    ({ pm with mainPot := pr.1 }, amount - amountToMain,
     [("main", amountToMain)])
  else (pm, amount, [])

/-- PotManager.addBet.  Returns none when the new-side-pot loop would not
terminate; otherwise the updated manager, the amount actually added and the
potsAffected breakdown. -/
def addBetF (fuel : Nat) (pm : PotManager) (pid : String) (amount : Int)
    (ceiling : Option Int) :
    Option (PotManager × Int × List (String × Int)) :=
  if amount ≤ 0 then some (pm, 0, [])
  else
    let m := addBetMainPhase pm pid amount ceiling
    let s := addBetSidePhase pid ceiling m.1.sidePots m.2.1
    let pm2 := { m.1 with sidePots := s.1 }
    match addBetLoop pid ceiling fuel pm2 s.2.1 (m.2.2 ++ s.2.2) with
    | none => none
    | some t => some (updateTotalAmount t.1, amount - t.2.1, t.2.2)

/-- PotManager.playerFolds: remove the player from the eligible set of every
pot. -/
def playerFolds (pm : PotManager) (playerId : String) : PotManager :=
  { pm with mainPot := potRemoveEligiblePlayer pm.mainPot playerId
            sidePots := pm.sidePots.map
              (fun pot => potRemoveEligiblePlayer pot playerId) }

/-- PotManager.handleExcessContribution: the source creates a new side pot
here and logs, but never attaches the pot to the manager nor moves any
chips (the completion is left as a comment in the source), so the manager is
returned unchanged on both branches. -/
def handleExcessContribution (pm : PotManager) (excessAmount : Int) :
    PotManager :=
  if excessAmount ≤ 0 then pm
  else
    let _newSidePot := createNewSidePot pm
    pm

/-- The side-pot loop of recalculateForAllIn. -/
def recalcGo (pid : String) (allInAmount : Int) :
    List Pot → Int → PotManager → PotManager
  | [], _, pm => pm
  | sidePot :: pots, totalContributed, pm =>
    let contribution := potGetPlayerContribution sidePot pid
    let pm2 :=
      if totalContributed + contribution > allInAmount then
        handleExcessContribution pm
          ((totalContributed + contribution) - allInAmount)
      else pm
    recalcGo pid allInAmount pots (totalContributed + contribution) pm2

/-- PotManager.recalculateForAllIn. -/
def recalculateForAllIn (pm : PotManager) (pid : String) (allInAmount : Int) :
    PotManager :=
  let mainContribution := potGetPlayerContribution pm.mainPot pid
  updateTotalAmount (recalcGo pid allInAmount pm.sidePots mainContribution pm)

/-- PotManager.playerAllIn. -/
def playerAllInOp (pm : PotManager) (pid : String) (allInAmount : Int) :
    PotManager :=
  recalculateForAllIn pm pid allInAmount

/-- PotManager.advanceRound: throws on an invalid round name. -/
def advanceRoundOp (pm : PotManager) (newRound : String) :
    Except String PotManager :=
  if newRound = "preflop" ∨ newRound = "flop" ∨ newRound = "turn" ∨
     newRound = "river" then
    .ok { pm with currentRound := newRound }
  else .error ("Rodada inválida: " ++ newRound)

/-- PotManager.resetForNewHand. -/
def resetForNewHand (pm : PotManager) : PotManager :=
  { pm with mainPot := mkPot "main" 0, sidePots := [], totalAmount := 0
            isShowdown := false, currentRound := "preflop"
            lastDistribution := none }

/-- The per-pot body of distributeAllPots: skip empty pots, filter the
ranked winner list down to this pot's eligible set, skip when nobody is
left, otherwise distribute and accumulate. -/
def distStep (winnersByStrength : List String) (acc : DistResult)
    (pot : Pot) : DistResult × Pot :=
  if pot.amount ≤ 0 then (acc, pot)
  else
    let eligibleWinners :=
      winnersByStrength.filter (fun pid => potIsPlayerEligible pot pid)
    if eligibleWinners.isEmpty then (acc, pot)
    else
      let dr := distributeToWinners pot eligibleWinners
      let folded := dr.1.foldl
        (fun (p : List (String × Int) × Int) e =>
          (addWinnerAmount p.1 e.1 e.2, p.2 + e.2))
        (acc.winners, acc.totalDistributed)
      ({ pots := acc.pots ++
           [{ potId := pot.id, amount := pot.amount, distribution := dr.1
              eligibleWinners := eligibleWinners }]
         totalDistributed := folded.2
         winners := folded.1 }, dr.2)

/-- distStep folded over the side pots in order. -/
def distStepList (winnersByStrength : List String) (acc : DistResult) :
    List Pot → DistResult × List Pot
  | [] => (acc, [])
  | pot :: pots =>
    let r1 := distStep winnersByStrength acc pot
    let r2 := distStepList winnersByStrength r1.1 pots
    (r2.1, r1.2 :: r2.2)

/-- PotManager.distributeAllPots: when the showdown already happened return
the stored lastDistribution unchanged; otherwise set the showdown flag,
process the main pot then the side pots in level order, and store the
result. -/
def distributeAllPots (pm : PotManager) (winnersByStrength : List String) :
    Option DistResult × PotManager :=
  if pm.isShowdown then (pm.lastDistribution, pm)
  else
    let r1 := distStep winnersByStrength emptyDistResult pm.mainPot
    let r2 := distStepList winnersByStrength r1.1 pm.sidePots
    (some r2.1,
     { pm with isShowdown := true, mainPot := r1.2, sidePots := r2.2
               lastDistribution := some r2.1 })

-- ============ GAME MANAGER (poker-manager.js, action processing) ============

/-- The slice of PokerGameManager that processPlayerAction reads and writes.
Timers, events, chat, statistics and the tournament layer are external
collaborators and are omitted. -/
structure GameManager where
  initialized : Bool
  state : String
  currentPlayerTurn : Option String
  currentMaxBet : Int
  lastRaiseAmount : Int
  bigBlind : Int
  players : List PokerPlayer
  potManager : PotManager
  currentRound : String
  lastAction : Option (String × String × Int)
deriving DecidableEq, Repr

/-- playerManager.getPlayerById. -/
def getPlayerById (gm : GameManager) (pid : String) : Option PokerPlayer :=
  gm.players.find? (fun p => p.userId = pid)

/-- Replace the first player with the given id (the JS code mutates the
object returned by getPlayerById in place). -/
def updateFirstPlayer : List PokerPlayer → String → PokerPlayer →
    List PokerPlayer
  | [], _, _ => []
  | q :: qs, pid, p2 =>
      if q.userId = pid then p2 :: qs else q :: updateFirstPlayer qs pid p2

def updatePlayerIn (gm : GameManager) (pid : String) (p2 : PokerPlayer) :
    GameManager :=
  { gm with players := updateFirstPlayer gm.players pid p2 }

/-- PokerGameManager.calculateMinRaise. -/
def calculateMinRaise (gm : GameManager) : Int :=
  if gm.currentMaxBet = 0 then gm.bigBlind
  else if gm.lastRaiseAmount > 0 then gm.currentMaxBet + gm.lastRaiseAmount
  else gm.currentMaxBet * 2

/-- PokerGameManager.validateAction: pure checks, throwing named validation
errors. -/
def validateAction (gm : GameManager) (p : PokerPlayer) (action : String)
    (amount : Int) : Except String Unit :=
  match strToLower action with
  | "fold" => .ok ()
  | "check" =>
      if canCheck p gm.currentMaxBet then .ok ()
      else .error "Não pode dar check, precisa igualar a aposta"
  | "call" =>
      if getCallAmount p gm.currentMaxBet > p.chips then
        .error "Fichas insuficientes para call"
      else .ok ()
  | "bet" =>
      if gm.currentMaxBet > 0 then .error "Não pode fazer bet quando já há apostas"
      else if amount ≤ 0 then .error "Valor de bet inválido"
      else if amount > p.chips then .error "Fichas insuficientes"
      else if amount < gm.bigBlind then
        .error ("Bet mínimo: " ++ toString gm.bigBlind)
      else .ok ()
  | "raise" =>
      if gm.currentMaxBet = 0 then
        .error "Não pode fazer raise sem apostas anteriores"
      else
        let minRaise := calculateMinRaise gm
        if amount < minRaise ∧ p.chips ≥ minRaise then
          .error ("Raise mínimo: " ++ toString minRaise)
        else if p.betAmount + amount > p.chips + p.betAmount then
          .error "Fichas insuficientes"
        else .ok ()
  | "allin" =>
      if p.chips ≤ 0 then .error "Sem fichas para all-in" else .ok ()
  | _ => .error ("Ação inválida: " ++ action)

/-- PokerGameManager.processPlayerAction.  Validation happens before any
state is touched; on an error thrown by takeAction, the player object as
takeAction left it is what remains in the manager (JS aliasing).  On success
the pot is updated through PotManager.addBet (the fueled model: none means
that call never returns), currentMaxBet and lastRaiseAmount are updated for
aggressive actions and the action is recorded.  Timer and event emission are
external; advanceTurn / checkRoundCompletion run only after a successful
action and are not part of the rejected-action claims, so they are not
modelled here. -/
def processPlayerAction (gm : GameManager) (pid : String) (action : String)
    (amount : Int) (fuel : Nat) :
    Option (Except String Unit × GameManager) :=
  if ¬ gm.initialized then some (.error "Jogo não inicializado", gm)
  else if ¬ (gm.state = "preflop" ∨ gm.state = "flop" ∨ gm.state = "turn" ∨
             gm.state = "river") then
    some (.error "Não é hora de agir", gm)
  else if gm.currentPlayerTurn ≠ some pid then some (.error "Não é sua vez", gm)
  else
    match getPlayerById gm pid with
    | none => some (.error "Jogador não encontrado", gm)
    | some player =>
      match validateAction gm player action amount with
      | .error e => some (.error e, gm)
      | .ok _ =>
        let gs : GameStateArg :=
          { currentMaxBet := gm.currentMaxBet, currentRound := gm.currentRound
            currentPlayerTurn := none }
        match takeAction player action amount gs with
        | (.error e, pAfter) => some (.error e, updatePlayerIn gm pid pAfter)
        | (.ok chipsAdded, pAfter) =>
          let gm1 := updatePlayerIn gm pid pAfter
          if chipsAdded > 0 then
            match addBetF fuel gm1.potManager pid chipsAdded
                (some pAfter.chips) with
            | none => none
            | some t =>
              let gm2 := { gm1 with potManager := t.1 }
              let gm3 :=
                if action = "bet" ∨ action = "raise" ∨ action = "allin" then
                  { gm2 with currentMaxBet := max gm2.currentMaxBet
                               pAfter.betAmount
                             lastRaiseAmount :=
                               if action = "raise" then amount else 0 }
                else gm2
              some (.ok (), { gm3 with lastAction := some (pid, action, chipsAdded) })
          else
            some (.ok (), { gm1 with lastAction := some (pid, action, chipsAdded) })

-- ================ DECKS ================

/-- The PokerDeck of baralho-texas.js: deal auto-restores.  The Fisher-Yates
shuffle draws from Math.random, so the deck operations take the resulting
permutation as a function argument; any permutation is a possible outcome. -/
structure DeckA where
  cards : List Card
  burnedCards : List Card
  usedCards : List Card
deriving DecidableEq, Repr

/-- baralho-texas.js PokerDeck.restoreUsedCards: reunite the three piles and
reshuffle. -/
def deckARestore (shuffleFn : List Card → List Card) (d : DeckA) : DeckA :=
  { cards := shuffleFn (d.cards ++ d.usedCards ++ d.burnedCards)
    usedCards := [], burnedCards := [] }

/-- baralho-texas.js PokerDeck.deal: when fewer cards remain than requested
it calls restoreUsedCards (a warning is only logged), then deals from the
top.  The faceUp marking is display only and omitted. -/
def deckADeal (shuffleFn : List Card → List Card) (d : DeckA) (count : Nat) :
    List Card × DeckA :=
  let d1 := if d.cards.length < count then deckARestore shuffleFn d else d
  let dealtCards := d1.cards.take count
  (dealtCards,
   { d1 with cards := d1.cards.drop count
             usedCards := d1.usedCards ++ dealtCards })

/-- The PokerDeck of the poker-engine file: deal throws on underflow. -/
structure DeckB where
  cards : List Card
  burnedCards : List Card
  usedCards : List Card
deriving DecidableEq, Repr

/-- poker-engine PokerDeck.deal: an explicit error when the deck holds fewer
cards than requested, otherwise deal from the top. -/
def deckBDeal (d : DeckB) (count : Nat) :
    Except String (List Card × DeckB) :=
  if d.cards.length < count then
    .error ("Baralho tem apenas " ++ toString d.cards.length ++
            " cartas, tentou distribuir " ++ toString count)
  else
    .ok (d.cards.take count,
         { d with cards := d.cards.drop count
                  usedCards := d.usedCards ++ d.cards.take count })

-- ================ REACHABLE LEDGER STATES ================

/-- The pot-ledger states reachable from a fresh PotManager through its
public operations: posting a bet (when the fueled addBet completes), folds,
all-in recalculation, round advancement, distribution and the new-hand
reset. -/
inductive ReachableLedger : PotManager → Prop where
  | init : ReachableLedger initialPotManager
  | addBet (pm : PotManager) (pid : String) (amount : Int)
      (ceiling : Option Int) (fuel : Nat)
      (out : PotManager × Int × List (String × Int)) :
      ReachableLedger pm → addBetF fuel pm pid amount ceiling = some out →
      ReachableLedger out.1
  | fold (pm : PotManager) (pid : String) :
      ReachableLedger pm → ReachableLedger (playerFolds pm pid)
  | allin (pm : PotManager) (pid : String) (amt : Int) :
      ReachableLedger pm → ReachableLedger (playerAllInOp pm pid amt)
  | advance (pm pm2 : PotManager) (r : String) :
      ReachableLedger pm → advanceRoundOp pm r = .ok pm2 →
      ReachableLedger pm2
  | distribute (pm : PotManager) (ws : List String) :
      ReachableLedger pm → ReachableLedger (distributeAllPots pm ws).2
  | reset (pm : PotManager) :
      ReachableLedger pm → ReachableLedger (resetForNewHand pm)

/-- Monotonic eligibility, as a boolean check over a manager: every player
eligible for a side pot is eligible for the main pot and for every
lower-level side pot. -/
def monotoneEligibleB (pm : PotManager) : Bool :=
  pm.sidePots.enum.all (fun p =>
    p.2.eligiblePlayers.all (fun pid =>
      pm.mainPot.eligiblePlayers.contains pid &&
      (pm.sidePots.take p.1).all
        (fun q => q.eligiblePlayers.contains pid)))

-- ================ CONCRETE FIXTURES ================

/-- Hole cards A spades, 2 spades of the wheel fixture. -/
def wheelHole : List Card := [⟨Suit.spades, Rank.ace⟩, ⟨Suit.spades, Rank.two⟩]

/-- Community 3 spades, 4 spades, 5 hearts, 9 clubs, K diamonds. -/
def wheelComm : List Card :=
  [⟨Suit.spades, Rank.three⟩, ⟨Suit.spades, Rank.four⟩,
   ⟨Suit.hearts, Rank.five⟩, ⟨Suit.clubs, Rank.nine⟩,
   ⟨Suit.diamonds, Rank.king⟩]

/-- A hand making the six-high straight 6-5-4-3-2 against the same board
style (no flush). -/
def sixHole : List Card := [⟨Suit.diamonds, Rank.six⟩, ⟨Suit.diamonds, Rank.five⟩]

def sixComm : List Card :=
  [⟨Suit.clubs, Rank.four⟩, ⟨Suit.hearts, Rank.three⟩,
   ⟨Suit.spades, Rank.two⟩, ⟨Suit.clubs, Rank.nine⟩,
   ⟨Suit.diamonds, Rank.king⟩]

/-- A king-high heart flush hand (category above any straight). -/
def flushHole : List Card := [⟨Suit.hearts, Rank.two⟩, ⟨Suit.hearts, Rank.seven⟩]

def flushComm : List Card :=
  [⟨Suit.hearts, Rank.nine⟩, ⟨Suit.hearts, Rank.jack⟩,
   ⟨Suit.hearts, Rank.king⟩, ⟨Suit.clubs, Rank.three⟩,
   ⟨Suit.spades, Rank.four⟩]

/-- The pot state of the side-pot scenario of the spec: A all-in for 100,
B and C at 300 each; main pot 300 eligible {A,B,C}, side pot 400 eligible
{B,C}. -/
def scenarioMainPot : Pot :=
  { id := "main", level := 0, amount := 300
    playerContributions :=
      [{ playerId := "A", amount := 100, isEligible := true, hasWon := false
         wonAmount := 0 },
       { playerId := "B", amount := 100, isEligible := true, hasWon := false
         wonAmount := 0 },
       { playerId := "C", amount := 100, isEligible := true, hasWon := false
         wonAmount := 0 }]
    eligiblePlayers := ["A", "B", "C"], winners := []
    isDistributed := false, isLocked := false }

def scenarioSidePot : Pot :=
  { id := "side-1", level := 1, amount := 400
    playerContributions :=
      [{ playerId := "B", amount := 200, isEligible := true, hasWon := false
         wonAmount := 0 },
       { playerId := "C", amount := 200, isEligible := true, hasWon := false
         wonAmount := 0 }]
    eligiblePlayers := ["B", "C"], winners := []
    isDistributed := false, isLocked := false }

def scenarioManager : PotManager :=
  { mainPot := scenarioMainPot, sidePots := [scenarioSidePot]
    totalAmount := 700, currentRound := "river", isShowdown := false
    lastDistribution := none }

/-- A 100-chip pot for the split-pot remainder fixture. -/
def splitPotEx : Pot := { mkPot "main" 0 with amount := 100 }

/-- A fresh small-blind player with the default 1500 stack. -/
def sbPlayerEx : PokerPlayer := mkPokerPlayer "p1" "P1" 1500

/-- An initialized two-player manager state in the preflop round with the
turn on p1 (the state processPlayerAction expects). -/
def gmEx : GameManager :=
  { initialized := true, state := "preflop", currentPlayerTurn := some "p1"
    currentMaxBet := 0, lastRaiseAmount := 0, bigBlind := 20
    players := [mkPokerPlayer "p1" "P1" 1500, mkPokerPlayer "p2" "P2" 1500]
    potManager := initialPotManager, currentRound := "preflop"
    lastAction := none }

/-- Deck fixture for the underflow behaviors: one card remaining, one
burned, one already dealt. -/
def deckAEx : DeckA :=
  { cards := [⟨Suit.hearts, Rank.two⟩]
    burnedCards := [⟨Suit.clubs, Rank.king⟩]
    usedCards := [⟨Suit.spades, Rank.ace⟩] }

def deckBEx : DeckB :=
  { cards := [⟨Suit.hearts, Rank.two⟩]
    burnedCards := [⟨Suit.clubs, Rank.king⟩]
    usedCards := [⟨Suit.spades, Rank.ace⟩] }

-- ================ THEOREMS ================

-- ---------------- evaluator lemmas ----------------

theorem Card.value_le (c : Card) : c.value ≤ 14 := by
  cases c with
  | mk s r => cases r <;> simp [Card.value, Rank.value]

theorem length_insertCardDesc (x : Card) (l : List Card) :
    (insertCardDesc x l).length = l.length + 1 := by
  induction l with
  | nil => rfl
  | cons y ys ih => simp only [insertCardDesc]; split <;> simp [ih]

theorem length_sortCardsDesc (l : List Card) :
    (sortCardsDesc l).length = l.length := by
  induction l with
  | nil => rfl
  | cons y ys ih =>
      simp only [sortCardsDesc, List.foldr] at ih ⊢
      rw [length_insertCardDesc, ih, List.length_cons]

theorem kickerPart_lt (l : List Card) (h : l.length ≤ 5) :
    kickerPart l < 1000000 := by
  rcases l with _ | ⟨a, _ | ⟨b, _ | ⟨c, _ | ⟨d, _ | ⟨e, rest⟩⟩⟩⟩⟩
  · simp [kickerPart, kickerPartGo]
  · have ha := Card.value_le a
    simp only [kickerPart, kickerPartGo]
    norm_num
    omega
  · have ha := Card.value_le a
    have hb := Card.value_le b
    simp only [kickerPart, kickerPartGo]
    norm_num
    omega
  · have ha := Card.value_le a
    have hb := Card.value_le b
    have hc := Card.value_le c
    simp only [kickerPart, kickerPartGo]
    norm_num
    omega
  · have ha := Card.value_le a
    have hb := Card.value_le b
    have hc := Card.value_le c
    have hd := Card.value_le d
    simp only [kickerPart, kickerPartGo]
    norm_num
    omega
  · have hlen : rest.length = 0 := by
      simp only [List.length_cons] at h
      omega
    have hrest : rest = [] := List.length_eq_zero.mp hlen
    subst hrest
    have ha := Card.value_le a
    have hb := Card.value_le b
    have hc := Card.value_le c
    have hd := Card.value_le d
    have he := Card.value_le e
    simp only [kickerPart, kickerPartGo]
    norm_num
    omega

theorem length_of_straightWindow {l : List Card} {cs : List Card}
    (h : straightWindow l = some cs) : cs.length ≤ 5 := by
  obtain ⟨i, _, hi⟩ := List.exists_of_findSome?_eq_some h
  simp only at hi
  split at hi
  · injection hi with hi
    subst hi
    simp [List.length_take]
  · exact absurd hi (by simp)

theorem length_of_checkStraight {cards cs : List Card}
    (h : checkStraight cards = some cs) : cs.length ≤ 5 := by
  unfold checkStraight at h
  dsimp only at h
  split at h
  next seq hseq =>
    injection h with h
    subst h
    exact length_of_straightWindow hseq
  next =>
    split at h
    · injection h with h
      subst h
      refine le_trans (List.length_filterMap_le _ _) ?_
      simp
    · exact absurd h (by simp)

theorem length_of_checkStraightFlush {cards cs : List Card}
    (h : checkStraightFlush cards = some cs) : cs.length ≤ 5 := by
  obtain ⟨s, _, hs⟩ := List.exists_of_findSome?_eq_some h
  simp only at hs
  split at hs
  · split at hs
    next st hst =>
      injection hs with hs
      subst hs
      simp [List.length_take]
    next => exact absurd hs (by simp)
  · exact absurd hs (by simp)

theorem length_of_checkRoyalFlush {cards cs : List Card}
    (h : checkRoyalFlush cards = some cs) : cs.length ≤ 5 := by
  unfold checkRoyalFlush at h
  split at h
  · exact absurd h (by simp)
  next sf hsf =>
    dsimp only at h
    split at h
    next hcond =>
      injection h with h
      subst h
      exact le_of_eq hcond.2.2.2
    next => exact absurd h (by simp)

theorem length_of_checkFourOfAKind {cards cs : List Card}
    (h : checkFourOfAKind cards = some cs) : cs.length ≤ 5 := by
  unfold checkFourOfAKind at h
  split at h
  · exact absurd h (by simp)
  next v hv =>
    injection h with h
    subst h
    simp [List.length_take]

theorem length_of_checkFullHouse {cards cs : List Card}
    (h : checkFullHouse cards = some cs) : cs.length ≤ 5 := by
  unfold checkFullHouse at h
  split at h
  · exact absurd h (by simp)
  next t ht =>
    split at h
    · exact absurd h (by simp)
    next p hp =>
      injection h with h
      subst h
      simp only [List.length_append, List.length_take]
      omega

theorem length_of_checkFlush {cards cs : List Card}
    (h : checkFlush cards = some cs) : cs.length ≤ 5 := by
  unfold checkFlush at h
  split at h
  · exact absurd h (by simp)
  next s hs =>
    injection h with h
    subst h
    simp [List.length_take]

theorem length_of_checkThreeOfAKind {cards cs : List Card}
    (h : checkThreeOfAKind cards = some cs) : cs.length ≤ 5 := by
  unfold checkThreeOfAKind at h
  split at h
  · exact absurd h (by simp)
  next v hv =>
    injection h with h
    subst h
    simp only [List.length_append, List.length_take]
    omega

theorem length_of_checkTwoPair {cards cs : List Card}
    (h : checkTwoPair cards = some cs) : cs.length ≤ 5 := by
  unfold checkTwoPair at h
  dsimp only at h
  split at h
  · split at h
    · injection h with h
      subst h
      simp [List.length_take]
    · exact absurd h (by simp)
  · exact absurd h (by simp)

theorem length_of_checkOnePair {cards cs : List Card}
    (h : checkOnePair cards = some cs) : cs.length ≤ 5 := by
  unfold checkOnePair at h
  split at h
  · exact absurd h (by simp)
  next v hv =>
    injection h with h
    subst h
    simp only [List.length_append, List.length_take]
    omega

theorem length_checkHighCard (cards : List Card) :
    (checkHighCard cards).length ≤ 5 := by
  simp [checkHighCard, List.length_take]

theorem finalizeResult_decomp (cs : List Card) (r : Nat) (h : cs.length ≤ 5) :
    ∃ k, (finalizeResult cs r).value = (finalizeResult cs r).rank * 1000000 + k ∧
         k < 1000000 := by
  refine ⟨kickerPart (sortCardsDesc cs), rfl, ?_⟩
  apply kickerPart_lt
  rw [length_sortCardsDesc]
  exact h

theorem evaluate_value_decomp (hole comm : List Card) :
    ∃ k, (evaluate hole comm).value = (evaluate hole comm).rank * 1000000 + k ∧
         k < 1000000 := by
  unfold evaluate
  dsimp only
  split
  next cs h => exact finalizeResult_decomp cs _ (length_of_checkRoyalFlush h)
  next =>
  split
  next cs h => exact finalizeResult_decomp cs _ (length_of_checkStraightFlush h)
  next =>
  split
  next cs h => exact finalizeResult_decomp cs _ (length_of_checkFourOfAKind h)
  next =>
  split
  next cs h => exact finalizeResult_decomp cs _ (length_of_checkFullHouse h)
  next =>
  split
  next cs h => exact finalizeResult_decomp cs _ (length_of_checkFlush h)
  next =>
  split
  next cs h => exact finalizeResult_decomp cs _ (length_of_checkStraight h)
  next =>
  split
  next cs h => exact finalizeResult_decomp cs _ (length_of_checkThreeOfAKind h)
  next =>
  split
  next cs h => exact finalizeResult_decomp cs _ (length_of_checkTwoPair h)
  next =>
  split
  next cs h => exact finalizeResult_decomp cs _ (length_of_checkOnePair h)
  next => exact finalizeResult_decomp _ _ (length_checkHighCard _)

-- ---------------- C4 ----------------

/-- C4: the hand comparator is consistent with category dominance.  For any
two evaluated hands whose categories differ, compareHands places the hand of
the higher category strictly above the other (1 one way, -1 the other way)
regardless of kickers, and its tiebreakValue is strictly larger, because the
category sits at weight 1,000,000 while five kickers of value at most 14 sum
to at most 579,194. -/
theorem compareHands_category_dominance
    (hole1 comm1 hole2 comm2 : List Card)
    (hr : (evaluate hole2 comm2).rank < (evaluate hole1 comm1).rank) :
    compareHands (evaluate hole1 comm1) (evaluate hole2 comm2) = 1 ∧
    compareHands (evaluate hole2 comm2) (evaluate hole1 comm1) = -1 ∧
    (evaluate hole2 comm2).value < (evaluate hole1 comm1).value := by
  refine ⟨?_, ?_, ?_⟩
  · unfold compareHands
    rw [if_pos (by omega : ¬ (evaluate hole1 comm1).rank = (evaluate hole2 comm2).rank)]
    rw [if_pos (by omega : (evaluate hole1 comm1).rank > (evaluate hole2 comm2).rank)]
  · unfold compareHands
    rw [if_pos (by omega : ¬ (evaluate hole2 comm2).rank = (evaluate hole1 comm1).rank)]
    rw [if_neg (by omega : ¬ (evaluate hole2 comm2).rank > (evaluate hole1 comm1).rank)]
  · obtain ⟨k1, hv1, hk1⟩ := evaluate_value_decomp hole1 comm1
    obtain ⟨k2, hv2, hk2⟩ := evaluate_value_decomp hole2 comm2
    rw [hv1, hv2]
    omega

/-- Witness for C4 at a concrete flush-versus-straight pair. -/
theorem compareHands_category_dominance_witness :
    (evaluate sixHole sixComm).rank < (evaluate flushHole flushComm).rank ∧
    (compareHands (evaluate flushHole flushComm) (evaluate sixHole sixComm) = 1 ∧
     compareHands (evaluate sixHole sixComm) (evaluate flushHole flushComm) = -1 ∧
     (evaluate sixHole sixComm).value < (evaluate flushHole flushComm).value) :=
  ⟨by decide, compareHands_category_dominance flushHole flushComm sixHole sixComm
    (by decide)⟩

-- ---------------- C5 ----------------

/-- C5: on the wheel fixture the evaluator does return category Straight,
but the best five are the cards A-5-4-3-2 with the Ace still carrying its
value 14 (not 1), so the computed tiebreakValue of the wheel exceeds that of
the six-high straight 6-5-4-3-2 and compareHands ranks the wheel strictly
ABOVE it, contrary to the specified Ace-counts-low ordering. -/
theorem evaluate_wheel_ranks_above_six_high :
    (evaluate wheelHole wheelComm).rank = STRAIGHT ∧
    (evaluate wheelHole wheelComm).cards.map Card.value = [14, 5, 4, 3, 2] ∧
    (evaluate sixHole sixComm).rank = STRAIGHT ∧
    (evaluate sixHole sixComm).value < (evaluate wheelHole wheelComm).value ∧
    compareHands (evaluate wheelHole wheelComm) (evaluate sixHole sixComm) = 1 := by
  decide

-- ---------------- C10 ----------------

/-- C10: a stack never goes negative.  addToBet moves exactly
min(amount, chips) when both are positive and nothing otherwise, the moved
amount never exceeds the stack, a bet that empties the stack sets the all-in
flag, and the allIn action always sets it. -/
theorem playerAddToBet_safety (p : PokerPlayer) (amount : Int)
    (hp : 0 ≤ p.chips) :
    0 ≤ (playerAddToBet p amount).2.chips ∧
    (playerAddToBet p amount).1 =
      (if 0 < amount ∧ 0 < p.chips then min amount p.chips else 0) ∧
    (playerAddToBet p amount).1 ≤ p.chips ∧
    ((playerAddToBet p amount).2.chips = 0 → 0 < (playerAddToBet p amount).1 →
      (playerAddToBet p amount).2.isAllIn = true) ∧
    (playerAllInAction p).2.isAllIn = true := by
  have hAllIn : (playerAllInAction p).2.isAllIn = true := by
    simp [playerAllInAction]
  by_cases h1 : amount ≤ 0
  · have hres : playerAddToBet p amount = (0, p) := by
      unfold playerAddToBet
      rw [if_pos h1]
    rw [hres]
    exact ⟨hp, by rw [if_neg (by omega)], hp,
           fun _ hlt => absurd hlt (by omega), hAllIn⟩
  · by_cases h2 : min amount p.chips ≤ 0
    · have hres : playerAddToBet p amount = (0, p) := by
        unfold playerAddToBet
        rw [if_neg h1]
        dsimp only
        rw [if_pos h2]
      have hc : ¬ (0 < amount ∧ 0 < p.chips) := by
        intro hand
        exact absurd (lt_min hand.1 hand.2) (by omega)
      rw [hres]
      exact ⟨hp, by rw [if_neg hc], hp,
             fun _ hlt => absurd hlt (by omega), hAllIn⟩
    · have hle : min amount p.chips ≤ p.chips := min_le_right amount p.chips
      have hpos : 0 < min amount p.chips := by omega
      have hchips : 0 < p.chips := lt_of_lt_of_le hpos hle
      have hcond : 0 < amount ∧ 0 < p.chips := ⟨by omega, hchips⟩
      by_cases h3 : p.chips - min amount p.chips = 0
      · have hres : playerAddToBet p amount =
            (min amount p.chips,
             { p with chips := p.chips - min amount p.chips
                      betAmount := p.betAmount + min amount p.chips
                      totalBetThisHand := p.totalBetThisHand + min amount p.chips
                      lastBetAmount := min amount p.chips
                      isAllIn := true }) := by
          unfold playerAddToBet
          rw [if_neg h1]
          dsimp only
          rw [if_neg h2]
          rw [if_pos h3]
        rw [hres]
        exact ⟨by simp, by rw [if_pos hcond], hle,
               fun _ _ => rfl, hAllIn⟩
      · have hres : playerAddToBet p amount =
            (min amount p.chips,
             { p with chips := p.chips - min amount p.chips
                      betAmount := p.betAmount + min amount p.chips
                      totalBetThisHand := p.totalBetThisHand + min amount p.chips
                      lastBetAmount := min amount p.chips }) := by
          unfold playerAddToBet
          rw [if_neg h1]
          dsimp only
          rw [if_neg h2]
          rw [if_neg h3]
        rw [hres]
        exact ⟨by simp, by rw [if_pos hcond], hle,
               fun hz _ => absurd hz h3, hAllIn⟩

/-- Witness for C10: a 5-chip stack asked to bet 9 moves only 5, hits zero
and is marked all-in. -/
theorem playerAddToBet_safety_witness :
    0 ≤ (mkPokerPlayer "w" "W" 5).chips ∧
    (0 ≤ (playerAddToBet (mkPokerPlayer "w" "W" 5) 9).2.chips ∧
     (playerAddToBet (mkPokerPlayer "w" "W" 5) 9).1 =
       (if 0 < (9 : Int) ∧ 0 < (mkPokerPlayer "w" "W" 5).chips then
          min 9 (mkPokerPlayer "w" "W" 5).chips else 0) ∧
     (playerAddToBet (mkPokerPlayer "w" "W" 5) 9).1 ≤
       (mkPokerPlayer "w" "W" 5).chips ∧
     ((playerAddToBet (mkPokerPlayer "w" "W" 5) 9).2.chips = 0 →
       0 < (playerAddToBet (mkPokerPlayer "w" "W" 5) 9).1 →
       (playerAddToBet (mkPokerPlayer "w" "W" 5) 9).2.isAllIn = true) ∧
     (playerAllInAction (mkPokerPlayer "w" "W" 5)).2.isAllIn = true) :=
  ⟨by decide, playerAddToBet_safety (mkPokerPlayer "w" "W" 5) 9 (by decide)⟩

-- ---------------- C3 ----------------

theorem canAct_of_no_turn (p : PokerPlayer) (gs : GameStateArg)
    (h : gs.currentPlayerTurn = none) : canAct p gs = false := by
  unfold canAct
  rw [h]
  split_ifs with h1 h2 h3 h4 h5 h6 h7 h8 h9 <;> first | rfl | simp_all

theorem takeAction_of_no_turn (p : PokerPlayer) (action : String)
    (amount : Int) (gs : GameStateArg) (h : gs.currentPlayerTurn = none) :
    takeAction p action amount gs =
      (.error (p.nickname ++ " não pode agir no momento"), p) := by
  unfold takeAction
  rw [canAct_of_no_turn p gs h]
  simp

theorem updateFirstPlayer_found (l : List PokerPlayer) (pid : String)
    (p : PokerPlayer) (h : l.find? (fun q => q.userId = pid) = some p) :
    updateFirstPlayer l pid p = l := by
  induction l with
  | nil => simp [List.find?] at h
  | cons q qs ih =>
      by_cases hq : q.userId = pid
      · rw [List.find?_cons_of_pos _ (by simp [hq])] at h
        injection h with h
        subst h
        simp [updateFirstPlayer, hq]
      · rw [List.find?_cons_of_neg _ (by simp [hq])] at h
        simp [updateFirstPlayer, hq, ih h]

/-- C3: every action request that processPlayerAction rejects (wrong game
state, out of turn, unknown player, a validation failure or the cannot-act
guard of takeAction) fails with a named error and leaves the manager --
players, bets, stacks, pot ledger and turn -- exactly as it was. -/
theorem processPlayerAction_rejected_no_mutation
    (gm : GameManager) (pid action : String) (amount : Int) (fuel : Nat)
    (e : String) (gm2 : GameManager)
    (h : processPlayerAction gm pid action amount fuel =
         some (.error e, gm2)) :
    gm2 = gm := by
  unfold processPlayerAction at h
  split at h
  · simp only [Option.some.injEq, Prod.mk.injEq] at h
    exact h.2.symm
  · split at h
    · simp only [Option.some.injEq, Prod.mk.injEq] at h
      exact h.2.symm
    · split at h
      · simp only [Option.some.injEq, Prod.mk.injEq] at h
        exact h.2.symm
      · split at h
        · simp only [Option.some.injEq, Prod.mk.injEq] at h
          exact h.2.symm
        next player hfind =>
          split at h
          next herr =>
            simp only [Option.some.injEq, Prod.mk.injEq] at h
            exact h.2.symm
          next =>
            dsimp only at h
            split at h
            next e2 pAfter heq =>
              rw [takeAction_of_no_turn player action amount _ rfl] at heq
              simp only [Prod.mk.injEq, Except.error.injEq] at heq
              simp only [Option.some.injEq, Prod.mk.injEq] at h
              rw [← h.2, ← heq.2, updatePlayerIn,
                  updateFirstPlayer_found gm.players pid player hfind]
            next chipsAdded pAfter heq =>
              rw [takeAction_of_no_turn player action amount _ rfl] at heq
              simp only [Prod.mk.injEq] at heq
              exact absurd heq.1 (by simp)

/-- Witness for C3: an unknown action string on a live preflop state is
rejected by validateAction and the manager is unchanged. -/
theorem processPlayerAction_rejected_no_mutation_witness :
    processPlayerAction gmEx "p1" "dance" 0 3 =
      some (Except.error "Ação inválida: dance", gmEx) ∧ gmEx = gmEx :=
  ⟨by decide, processPlayerAction_rejected_no_mutation gmEx "p1" "dance" 0 3
    "Ação inválida: dance" gmEx (by decide)⟩

-- ---------------- C6 ----------------

theorem sum_split_formula (base r : Int) (n : Nat) (h0 : 0 ≤ r) :
    ((List.range n).map
      (fun i : Nat => base + if (i : Int) < r then 1 else 0)).sum
      = n * base + min r n := by
  induction n with
  | zero =>
      simp
      omega
  | succ n ih =>
      rw [List.range_succ, List.map_append, List.sum_append]
      simp only [List.map_cons, List.map_nil, List.sum_cons, List.sum_nil]
      rw [ih]
      have hexp : (((n : Nat) + 1 : Nat) : Int) * base = (n : Int) * base + base := by
        push_cast
        ring
      by_cases hc : (n : Int) < r
      · rw [if_pos hc]
        have h1 : min r (n : Int) = (n : Int) := by omega
        have h2 : min r (((n : Nat) + 1 : Nat) : Int) = ((n : Nat) + 1 : Nat) := by
          push_cast
          omega
        rw [h1, h2, hexp]
        push_cast
        ring
      · rw [if_neg hc]
        have h1 : min r (n : Int) = r := by omega
        have h2 : min r (((n : Nat) + 1 : Nat) : Int) = r := by
          push_cast
          omega
        rw [h1, h2, hexp]
        ring

/-- C6: the split of a positive pot among N tied winners pays each
floor(amount/N) plus one extra chip to the prefix of the first
amount mod N winners, and the payouts sum exactly to the pot amount. -/
theorem calculateDistribution_split (pot : Pot) (ws : List String)
    (hM : 0 < pot.amount) (hws : ws ≠ []) :
    calculateDistribution pot ws =
      ws.enum.map (fun p =>
        (p.2, pot.amount / (ws.length : Int) +
              if (p.1 : Int) < pot.amount % (ws.length : Int) then 1 else 0)) ∧
    ((calculateDistribution pot ws).map Prod.snd).sum = pot.amount := by
  have hn : 0 < ws.length := List.length_pos.mpr hws
  have hnz : ((ws.length : Int)) ≠ 0 := by
    simp only [ne_eq, Nat.cast_eq_zero]
    omega
  have hfd : pot.amount.fdiv (ws.length : Int) =
      pot.amount / (ws.length : Int) :=
    Int.fdiv_eq_ediv _ (by positivity)
  have htm : pot.amount.tmod (ws.length : Int) =
      pot.amount % (ws.length : Int) :=
    Int.tmod_eq_emod (le_of_lt hM) (by positivity)
  by_cases h1 : ws.length = 1
  · obtain ⟨w, rfl⟩ := List.length_eq_one.mp h1
    constructor
    · simp [calculateDistribution, List.enum]
    · simp [calculateDistribution]
  · have hcode : calculateDistribution pot ws =
        ws.enum.map (fun p =>
          (p.2, pot.amount.fdiv (ws.length : Int) +
                if (p.1 : Int) < pot.amount.tmod (ws.length : Int) then 1
                else 0)) := by
      unfold calculateDistribution
      rw [if_neg h1]
    refine ⟨by rw [hcode, hfd, htm], ?_⟩
    rw [hcode, hfd, htm, List.map_map]
    have hmap :
        (Prod.snd ∘ fun p : Nat × String =>
          (p.2, pot.amount / (ws.length : Int) +
                if (p.1 : Int) < pot.amount % (ws.length : Int) then 1
                else 0)) =
        ((fun i : Nat => pot.amount / (ws.length : Int) +
            if (i : Int) < pot.amount % (ws.length : Int) then 1 else 0) ∘
          Prod.fst) := rfl
    rw [hmap, ← List.map_map, List.enum_map_fst,
        sum_split_formula _ _ _ (Int.emod_nonneg _ hnz)]
    have hlt : pot.amount % (ws.length : Int) < (ws.length : Int) :=
      Int.emod_lt_of_pos _ (by positivity)
    have hmin : min (pot.amount % (ws.length : Int)) ((ws.length : Nat) : Int) =
        pot.amount % (ws.length : Int) := by omega
    rw [hmin]
    have := Int.ediv_add_emod pot.amount (ws.length : Int)
    omega

/-- Witness for C6: the 100-chip pot with three tied winners pays 34, 33, 33
summing to 100. -/
theorem calculateDistribution_split_witness :
    calculateDistribution splitPotEx ["a", "b", "c"] =
      [("a", 34), ("b", 33), ("c", 33)] ∧
    ((calculateDistribution splitPotEx ["a", "b", "c"]).map Prod.snd).sum =
      splitPotEx.amount :=
  ⟨by decide,
   (calculateDistribution_split splitPotEx ["a", "b", "c"] (by decide)
     (by decide)).2⟩

-- ---------------- C7 ----------------

/-- C7: distributeAllPots is idempotent.  Calling it again on the state the
first call produced, with the same arguments, returns exactly the first
result and leaves the manager untouched, so nobody is paid twice; the guard
is the manager's showdown flag together with the stored lastDistribution. -/
theorem distributeAllPots_idempotent (pm : PotManager) (ws : List String) :
    distributeAllPots (distributeAllPots pm ws).2 ws =
      distributeAllPots pm ws := by
  by_cases h : pm.isShowdown
  · simp [distributeAllPots, h]
  · simp [distributeAllPots, h]

/-- Counterexample to the claim's marking mechanism: on a fresh ledger the
first distributeAllPots call skips the empty main pot, which therefore is
NOT marked distributed; the repeat-call no-op comes from the isShowdown
flag, which is set. -/
theorem distributeAllPots_empty_pot_not_marked :
    ((distributeAllPots initialPotManager ["A"]).2).mainPot.isDistributed =
      false ∧
    ((distributeAllPots initialPotManager ["A"]).2).isShowdown = true := by
  decide

-- ---------------- C1 ----------------

/-- C1: distributeAllPots pays each pot to EVERY entry of the passed winner
list that is eligible, with no per-pot restriction to the highest-ranking
subset.  On the A=100 all-in / B,C=300 scenario with the ranked-descending
list [A,B,C] (A best), the main pot is split 100/100/100 instead of going
entirely to A, and the side pot is split 200/200 between B and C regardless
of their relative ranking.  When the caller instead passes only the global
best hand [A] (what PokerGameManager.determineWinners produces), A receives
the 300 main pot and the 400 side pot is skipped entirely: it stays
undistributed and B and C receive nothing. -/
theorem distributeAllPots_ignores_ranking :
    ((distributeAllPots scenarioManager ["A", "B", "C"]).1).map
        DistResult.winners =
      some [("A", 100), ("B", 300), ("C", 300)] ∧
    ((distributeAllPots scenarioManager ["A"]).1).map DistResult.winners =
      some [("A", 300)] ∧
    ((distributeAllPots scenarioManager ["A"]).1).map
        DistResult.totalDistributed = some 300 ∧
    ((distributeAllPots scenarioManager ["A"]).2).sidePots.map
        Pot.isDistributed = [false] := by
  decide

-- ---------------- C2 ----------------

theorem getPotSpace_createNewSidePot (pm : PotManager) (pid : String)
    (ceiling : Option Int) :
    getPotSpaceForPlayer pid (createNewSidePot pm) ceiling ≤ 0 := by
  have hmax : potMaxContribution (createNewSidePot pm) = 0 := rfl
  have hcur : potGetPlayerContribution (createNewSidePot pm) pid = 0 := rfl
  cases ceiling with
  | none =>
      unfold getPotSpaceForPlayer
      simp
      rw [hmax, hcur]
  | some c =>
      unfold getPotSpaceForPlayer
      dsimp only
      split_ifs with hc
      · exact le_refl 0
      · rw [hmax, hcur]
        simp

theorem addBetLoop_none (pid : String) (ceiling : Option Int) (fuel : Nat)
    (pm : PotManager) (r : Int) (aff : List (String × Int)) (hr : 0 < r) :
    addBetLoop pid ceiling fuel pm r aff = none := by
  induction fuel generalizing pm aff with
  | zero =>
      unfold addBetLoop
      rw [if_neg (by omega)]
  | succ n ih =>
      unfold addBetLoop
      rw [if_neg (by omega)]
      dsimp only
      have hspace := getPotSpace_createNewSidePot pm pid ceiling
      have hmin : min r (getPotSpaceForPlayer pid (createNewSidePot pm)
          ceiling) ≤ 0 :=
        le_trans (min_le_right _ _) hspace
      rw [if_neg (by omega)]
      exact ih pm aff

theorem addBetF_none (fuel : Nat) (pm : PotManager) (pid : String)
    (amount : Int) (ceiling : Option Int) (ha : ¬ amount ≤ 0)
    (h : 0 < (addBetSidePhase pid ceiling
      (addBetMainPhase pm pid amount ceiling).1.sidePots
      (addBetMainPhase pm pid amount ceiling).2.1).2.1) :
    addBetF fuel pm pid amount ceiling = none := by
  unfold addBetF
  rw [if_neg ha]
  dsimp only
  rw [addBetLoop_none _ _ _ _ _ _ h]

/-- C2: chip conservation fails at the very first forced bet of a hand.
Posting the 10-chip small blind debits the stack (1500 to 1490), but
PotManager.addBet deposits nothing: the space formula (highest existing
contribution minus the player's contribution) is 0 on an empty pot, and the
new-side-pot loop can never place the remainder because a freshly created
pot also has space 0, so the call never terminates for any fuel.  The
conserved quantity sum(stacks) + potLedger.totalAmount drops from 1500 to
1490 with the ledger operation still pending forever. -/
theorem chip_conservation_fails_at_first_blind :
    (playerAddToBet sbPlayerEx 10).2.chips + initialPotManager.totalAmount =
      1490 ∧
    sbPlayerEx.chips + initialPotManager.totalAmount = 1500 ∧
    (playerAddToBet sbPlayerEx 10).1 = 10 ∧
    ∀ fuel, addBetF fuel initialPotManager "p1" 10 none = none := by
  refine ⟨by decide, by decide, by decide, ?_⟩
  intro fuel
  exact addBetF_none fuel initialPotManager "p1" 10 none (by decide)
    (by decide)

-- ---------------- C8 ----------------

theorem handleExcessContribution_id (pm : PotManager) (e : Int) :
    handleExcessContribution pm e = pm := by
  unfold handleExcessContribution
  split <;> rfl

theorem recalcGo_id (pid : String) (a : Int) (pots : List Pot) :
    ∀ (total : Int) (pm : PotManager), recalcGo pid a pots total pm = pm := by
  induction pots with
  | nil => intro total pm; rfl
  | cons sp sps ih =>
      intro total pm
      unfold recalcGo
      dsimp only
      rw [ih]
      split
      · exact handleExcessContribution_id _ _
      · rfl

theorem addBetMainPhase_sidePots (pm : PotManager) (pid : String)
    (amount : Int) (ceiling : Option Int) :
    (addBetMainPhase pm pid amount ceiling).1.sidePots = pm.sidePots := by
  unfold addBetMainPhase
  dsimp only
  split <;> rfl

theorem addBetLoop_some_state (pid : String) (ceiling : Option Int)
    (fuel : Nat) (pm : PotManager) (r : Int) (aff : List (String × Int))
    (out : PotManager × Int × List (String × Int))
    (h : addBetLoop pid ceiling fuel pm r aff = some out) : out.1 = pm := by
  by_cases hr : 0 < r
  · rw [addBetLoop_none pid ceiling fuel pm r aff hr] at h
    cases h
  · cases fuel with
    | zero =>
        unfold addBetLoop at h
        rw [if_pos (by omega)] at h
        injection h with h
        rw [← h]
    | succ n =>
        unfold addBetLoop at h
        rw [if_pos (by omega)] at h
        injection h with h
        rw [← h]

theorem reachable_sidePots_nil (pm : PotManager) (h : ReachableLedger pm) :
    pm.sidePots = [] := by
  induction h with
  | init => rfl
  | addBet pm pid amount ceiling fuel out hre heq ih =>
      unfold addBetF at heq
      split_ifs at heq with ha
      · injection heq with heq
        rw [← heq]
        exact ih
      · dsimp only at heq
        split at heq
        · cases heq
        next t hloop =>
          injection heq with heq
          rw [← heq]
          have hstate := addBetLoop_some_state _ _ _ _ _ _ _ hloop
          rw [hstate]
          show (addBetSidePhase pid ceiling
            (addBetMainPhase pm pid amount ceiling).1.sidePots
            (addBetMainPhase pm pid amount ceiling).2.1).1 = []
          rw [addBetMainPhase_sidePots, ih]
          rfl
  | fold pm pid hre ih =>
      show (playerFolds pm pid).sidePots = []
      unfold playerFolds
      dsimp only
      rw [ih]
      rfl
  | allin pm pid amt hre ih =>
      show (playerAllInOp pm pid amt).sidePots = []
      unfold playerAllInOp recalculateForAllIn
      dsimp only
      rw [recalcGo_id]
      exact ih
  | advance pm pm2 r hre heq ih =>
      unfold advanceRoundOp at heq
      split_ifs at heq with hok
      injection heq with heq
      rw [← heq]
      exact ih
  | distribute pm ws hre ih =>
      show (distributeAllPots pm ws).2.sidePots = []
      unfold distributeAllPots
      split_ifs with hs
      · exact ih
      · dsimp only
        rw [ih]
        rfl
  | reset pm hre ih => rfl

/-- C8: monotonic eligibility is an invariant of every reachable pot-ledger
state: each player eligible for a side pot is eligible for the main pot and
for all lower-level side pots.  It holds because no reachable state ever
carries a side pot: addBet can never place chips into a freshly created side
pot (its space is zero), so the only code path that would attach one never
runs to completion. -/
theorem reachable_monotone_eligibility (pm : PotManager)
    (h : ReachableLedger pm) : monotoneEligibleB pm = true := by
  unfold monotoneEligibleB
  rw [reachable_sidePots_nil pm h]
  rfl

/-- Witness for C8 at the state reached by a fold after initialization. -/
theorem reachable_monotone_eligibility_witness :
    monotoneEligibleB (playerFolds initialPotManager "A") = true :=
  reachable_monotone_eligibility _
    (ReachableLedger.fold _ _ ReachableLedger.init)

-- ---------------- C9 ----------------

/-- Counterexample to C9 as stated: the baralho-texas deck, asked for two
cards with only one left, does not fail -- its deal cannot signal an error
at all.  It silently merges the dealt and burned piles back in, reshuffles
(here the identity permutation, one possible Fisher-Yates outcome) and hands
out two cards. The second card returned, the Ace of spades, had already been
dealt earlier in the hand. -/
theorem deckA_deal_restores_instead_of_failing :
    (deckADeal id deckAEx 2).1 =
      [⟨Suit.hearts, Rank.two⟩, ⟨Suit.spades, Rank.ace⟩] ∧
    (deckADeal id deckAEx 2).2.burnedCards = [] := by
  decide

/-- C9 amended: on underflow the poker-engine deck (part_002) fails loudly
with the explicit insufficient-cards error and changes nothing, while the
baralho-texas deck (part_000) silently restores all dealt and burned cards
into the draw pile, reshuffles, and completes the deal. -/
theorem deck_deal_underflow_behavior (d2 : DeckB) (dA : DeckA)
    (shuffleFn : List Card → List Card) (n m : Nat)
    (h2 : d2.cards.length < n) (hA : dA.cards.length < m) :
    deckBDeal d2 n =
      .error ("Baralho tem apenas " ++ toString d2.cards.length ++
              " cartas, tentou distribuir " ++ toString n) ∧
    (deckADeal shuffleFn dA m).2.burnedCards = [] ∧
    (deckADeal shuffleFn dA m).1 =
      (shuffleFn (dA.cards ++ dA.usedCards ++ dA.burnedCards)).take m := by
  refine ⟨?_, ?_, ?_⟩
  · unfold deckBDeal
    rw [if_pos h2]
  · unfold deckADeal
    rw [if_pos hA]
    rfl
  · unfold deckADeal
    rw [if_pos hA]
    rfl

/-- Witness for C9 at the concrete one-card decks asked for two cards. -/
theorem deck_deal_underflow_behavior_witness :
    deckBDeal deckBEx 2 =
      .error ("Baralho tem apenas " ++ toString deckBEx.cards.length ++
              " cartas, tentou distribuir " ++ toString 2) ∧
    (deckADeal id deckAEx 2).2.burnedCards = [] ∧
    (deckADeal id deckAEx 2).1 =
      (id (deckAEx.cards ++ deckAEx.usedCards ++ deckAEx.burnedCards)).take 2 :=
  deck_deal_underflow_behavior deckBEx deckAEx id 2 2 (by decide) (by decide)
